import Mathlib

/-!
Verification development for the similarity-augmented retrieval and analysis
pipeline of the Expo-RAG mobile client.

The TypeScript sources `src/lib/api.ts`, `src/lib/vectorStore.ts` and
`src/app/(tabs)/index.tsx` are shallowly embedded below.  External
collaborators (the Supabase document store, the `match_documents`
nearest-neighbor RPC, the HuggingFace embedding service and the Groq chat
service) are modelled as explicit inputs: their responses are passed as
parameters, so each orchestration function becomes a pure Lean function of
its inputs and of the collaborator responses.  JavaScript numbers are
modelled as `Rat`; JavaScript truthiness on strings (`""` is falsy) and on
optional fields (`null`/`undefined` are falsy) is modelled explicitly.
-/

namespace ExpoRAG

/-- Historical price record (`HistoricalData` in `api.ts`): a year label,
a price and a currency code. -/
structure HistoricalData where
  year : String
  price : Rat
  currency : String
deriving DecidableEq, Repr

/-- Metadata object stored with a document (built in
`storeProductWithHistoricalData` in `api.ts`) and carried back on matched
rows.  Every field may be absent on rows coming from the store, hence all
fields are `Option`.  The source field `type` is called `mtype` here because
`type` is a Lean keyword. -/
structure DocMetadata where
  hsn_code : Option String
  name : Option String
  country : Option String
  mtype : Option String
  years : Option (List String)
  prices : Option (List (String × Rat))
  currencies : Option (List (String × String))
deriving DecidableEq, Repr

/-- Row returned by the `match_documents` nearest-neighbor RPC: the document
columns plus a similarity score (on the 0..1 scale used by the store). -/
structure MatchItem where
  hsn_code : String
  country : String
  content : String
  similarity : Rat
  metadata : Option DocMetadata
deriving DecidableEq, Repr

/-- Row of the `documents` table as read by the fallback search in
`vectorStore.ts` (same columns as `MatchItem` but with no similarity). -/
structure DocRow where
  hsn_code : String
  country : String
  content : String
  metadata : Option DocMetadata
deriving DecidableEq, Repr

/-- `SimilarProduct` of `api.ts`. -/
structure SimilarProduct where
  hsn_code : String
  product_name : String
  similarity : Rat
  countries : List String
deriving DecidableEq, Repr

/-- `SimilarHistoricalData` of `api.ts`: a similar product together with its
own historical records. -/
structure SimilarHistoricalData where
  hsn_code : String
  product_name : String
  similarity : Rat
  countries : List String
  historicalData : List HistoricalData
deriving DecidableEq, Repr

/-- `VectorSimilarProduct` of `vectorStore.ts`. -/
structure VectorSimilarProduct where
  content : String
  metadata : Option DocMetadata
  similarity : Rat
  hsn_code : String
  product_name : String
  countries : List String
deriving DecidableEq, Repr

/-- JavaScript `a || alt` on an optional string: `null`, `undefined` and the
empty string are falsy. -/
def jsOr (o : Option String) (alt : String) : String :=
  match o with
  | some s => if s = "" then alt else s
  | none => alt

/-- JavaScript `s || b || alt` where `s` is a plain string (falsy iff empty)
and `b` is an optional string. -/
def jsOr2 (s : String) (o : Option String) (alt : String) : String :=
  if s = "" then jsOr o alt else s

/-- Value of a run of decimal digit characters. -/
def digitsVal (cs : List Char) : Nat :=
  cs.foldl (fun n c => n * 10 + (c.toNat - 48)) 0

/-- Hexadecimal digit test (0-9, a-f, A-F). -/
def isHexDigitB (c : Char) : Bool :=
  c.isDigit || (97 ≤ c.toLower.toNat && c.toLower.toNat ≤ 102)

/-- Value of one hexadecimal digit character. -/
def hexVal (c : Char) : Nat :=
  if c.isDigit then c.toNat - 48 else c.toLower.toNat - 87

/-- Digit-prefix part of `Number.parseInt` after trimming and sign removal:
a `0x`/`0X` prefix selects hexadecimal, otherwise the longest decimal digit
prefix is converted; no digits at all yields `NaN`, modelled as `none`. -/
def parseIntDigits (cs : List Char) : Option Nat :=
  match cs with
  | '0' :: x :: rest =>
    if x = 'x' ∨ x = 'X' then
      let hs := rest.takeWhile isHexDigitB
      if hs = [] then none else some (hs.foldl (fun n c => n * 16 + hexVal c) 0)
    else
      some (digitsVal (('0' :: x :: rest).takeWhile Char.isDigit))
  | _ =>
    let ds := cs.takeWhile Char.isDigit
    if ds = [] then none else some (digitsVal ds)

/-- `Number.parseInt(s)` (no radix argument): trim leading whitespace
(ASCII whitespace here; the further Unicode space characters JavaScript also
trims do not occur in the stored labels), honor one optional sign, then
convert the digit prefix; `none` models the `NaN` outcome. -/
def parseIntOpt (s : String) : Option Int :=
  match s.toList.dropWhile Char.isWhitespace with
  | '-' :: rest => (parseIntDigits rest).map (fun n => -(n : Int))
  | '+' :: rest => (parseIntDigits rest).map (fun n => (n : Int))
  | cs => (parseIntDigits cs).map (fun n => (n : Int))

/-- Leading year token of a label: `Number.parseInt(year.split("-")[0])` in
the sort comparator of `parseCountryData`; `none` models the `NaN` outcome.
The part before the first dash is the characters up to the first `'-'`. -/
def yearTokOpt (y : String) : Option Int :=
  parseIntOpt (String.mk (y.toList.takeWhile (fun c => c ≠ '-')))

/-- Comparator of the sort in `parseCountryData` under ECMAScript
`SortCompare` semantics: the value of
`parseInt(b.year.split("-")[0]) - parseInt(a.year.split("-")[0])`, where a
`NaN` operand makes the subtraction `NaN`, which `SortCompare` coerces to
`+0` (a tie). -/
def yearCmp (a b : HistoricalData) : Int :=
  match yearTokOpt b.year, yearTokOpt a.year with
  | some x, some y => x - y
  | _, _ => 0

/-- Precedence relation realizing the comparator for a stable sort: `a` may
precede `b` when the comparator value is non-positive.  When every involved
key parses, the comparator is a consistent total preorder and every
ECMAScript-conforming (stable since ES2019) sort produces the unique stable
order, which `List.insertionSort` with this relation also produces.  With a
`NaN` token present the comparator is inconsistent and ECMAScript leaves the
order implementation-defined; ordering theorems below are therefore stated
only for all-numeric keys. -/
def yearDesc (a b : HistoricalData) : Prop := yearCmp a b ≤ 0

instance : DecidableRel yearDesc := fun a b => by
  unfold yearDesc; infer_instance

/-- Records a market cell maps and filters to before sorting: entry order is
object-entry order; `NaN` and non-positive prices are dropped. -/
def validRecords (cell : List (String × Option Rat)) : List HistoricalData :=
  cell.filterMap (fun yp =>
    match yp.2 with
    | some p => if 0 < p then some ⟨yp.1, p, "USD"⟩ else none
    | none => none)

/-- Helper function `parseCountryData` of `api.ts`.  The market-column cell
is modelled as an association list of year keys to `Option Rat` price values
in object-entry order; a `none` price stands for a cell value whose
`parseFloat` is `NaN`.  The source maps entries to records with currency
`"USD"`, filters out `NaN` and non-positive prices, sorts by descending
leading year token and keeps the first 5. -/
def parseCountryData (cell : List (String × Option Rat)) : List HistoricalData :=
  ((validRecords cell).insertionSort yearDesc).take 5

/-- Failure outcomes of `fetchHistoricalData` (each is a thrown `Error` in
the source, distinguished here by which `throw` site produced it). -/
inductive FetchErr where
  | codeNotFound
  | noCountryAnywhere
  | countryNotFound (available : List String)
  | noValidRecords
deriving DecidableEq, Repr

/-- Wide row of the `market_prices` table: one cell per market column, where
a `none` cell models a SQL `NULL` column.  Identity and timestamp columns of
the source row (`hsn_code`, `id`, `created_at`, `updated_at`) are not market
columns and are omitted from `cells`. -/
structure MarketRow where
  cells : List (String × Option (List (String × Option Rat)))
deriving DecidableEq, Repr

/-- `fetchHistoricalData` of `api.ts`.  The Supabase `single()` lookup result
is passed in as `row?` (`none` models both a query error and a missing row).
A missing or `NULL` market column raises `countryNotFound` carrying the
non-null market columns, or `noCountryAnywhere` when there are none; a column
that parses to zero valid records raises `noValidRecords`. -/
def fetchHistoricalData (row? : Option MarketRow) (country : String) :
    Except FetchErr (List HistoricalData) :=
  match row? with
  | none => .error .codeNotFound
  | some row =>
    match (row.cells.lookup country).join with
    | none =>
      match (row.cells.filter (fun kv => kv.2.isSome)).map (·.1) with
      | [] => .error .noCountryAnywhere
      | a :: available => .error (.countryNotFound (a :: available))
    | some cell =>
      match parseCountryData cell with
      | [] => .error .noValidRecords
      | r :: records => .ok (r :: records)

/-- Optional-chained metadata field access `item.metadata?.type`. -/
def metaType (i : MatchItem) : Option String := i.metadata.bind (·.mtype)

/-- Optional-chained metadata field access `item.metadata?.years`. -/
def metaYears (i : MatchItem) : Option (List String) := i.metadata.bind (·.years)

/-- Optional-chained metadata field access `item.metadata?.prices`. -/
def metaPrices (i : MatchItem) : Option (List (String × Rat)) := i.metadata.bind (·.prices)

/-- Optional-chained metadata field access `item.metadata?.currencies`. -/
def metaCurrencies (i : MatchItem) : Option (List (String × String)) :=
  i.metadata.bind (·.currencies)

/-- Self-match test in the `findSimilarHistoricalData` loop:
`item.hsn_code === hsnCode && item.country === country`. -/
def isSelf (hsnCode country : String) (i : MatchItem) : Bool :=
  i.hsn_code = hsnCode && i.country = country

/-- Gate of the `findSimilarHistoricalData` loop:
`item.metadata?.type === "product_with_history" && similarity >= 50`, where
`similarity = item.similarity * 100`. -/
def passesGate (i : MatchItem) : Bool :=
  metaType i = some "product_with_history" && decide ((50 : Rat) ≤ i.similarity * 100)

/-- Price-metadata test of the `findSimilarHistoricalData` loop:
`item.metadata?.years && item.metadata?.prices`.  In JavaScript a present
array or object is truthy even when empty, so this is a presence test. -/
def hasPriceMeta (i : MatchItem) : Bool :=
  (metaYears i).isSome && (metaPrices i).isSome

/-- Similar-products entry pushed by the `findSimilarHistoricalData` loop. -/
def toSimilarProduct (i : MatchItem) : SimilarProduct :=
  { hsn_code := jsOr2 i.hsn_code none "Unknown"
    product_name := jsOr (i.metadata.bind (·.name)) "Unknown Product"
    similarity := min 100 (i.similarity * 100)
    countries := [jsOr2 i.country none "Unknown"] }

/-- Similar-historical-data entry pushed by the `findSimilarHistoricalData`
loop: the metadata year list rebuilt into records via the year-to-price and
year-to-currency maps, with the source defaults `prices[year] || 0` and
`currencies[year] || "USD"`. -/
def toSimilarHistorical (i : MatchItem) : SimilarHistoricalData :=
  let prices := (metaPrices i).getD []
  let currencies := (metaCurrencies i).getD []
  { hsn_code := jsOr2 i.hsn_code none "Unknown"
    product_name := jsOr (i.metadata.bind (·.name)) "Unknown Product"
    similarity := min 100 (i.similarity * 100)
    countries := [jsOr2 i.country none "Unknown"]
    historicalData := ((metaYears i).getD []).map (fun y =>
      { year := y
        price := (prices.lookup y).getD 0
        currency := jsOr (currencies.lookup y) "USD" }) }

/-- The `for (const item of data)` loop of `findSimilarHistoricalData`
(`api.ts` lines 353-388): skip the querying key, then, inside the
`product_with_history`-and-`similarity >= 50` gate, push a similar-products
entry and, when year and price metadata are present, also a
similar-historical-data entry.  Entries appear in input order. -/
def processMatches (hsnCode country : String) :
    List MatchItem → List SimilarProduct × List SimilarHistoricalData
  | [] => ([], [])
  | i :: rest =>
    let (ps, hs) := processMatches hsnCode country rest
    if isSelf hsnCode country i then (ps, hs)
    else if passesGate i then
      if hasPriceMeta i then (toSimilarProduct i :: ps, toSimilarHistorical i :: hs)
      else (toSimilarProduct i :: ps, hs)
    else (ps, hs)

/-- `findSimilarHistoricalData` of `api.ts`, after the upsert and embedding
side effects.  The `match_documents` RPC response is passed in as `rpc`
(`.error` models `{ error }`, `.ok` the returned rows).  An RPC error or an
empty row set yields the empty result pair; otherwise the loop runs and both
lists are capped to `limit` by `slice(0, limit)`. -/
def findSimilarHistoricalData (hsnCode country : String) (limit : Nat)
    (rpc : Except Unit (List MatchItem)) :
    List SimilarProduct × List SimilarHistoricalData :=
  match rpc with
  | .error _ => ([], [])
  | .ok data =>
    if data = [] then ([], [])
    else
      let pair := processMatches hsnCode country data
      (pair.1.take limit, pair.2.take limit)

/-- Single pass of the JavaScript `String.prototype.split(/\s+/)` tokenizer:
maximal whitespace runs separate tokens, a leading run contributes a leading
empty token and a trailing run a trailing empty token.  The first argument
is `true` while inside a whitespace run; the second accumulates the current
token in reverse. -/
def wsSplitGo : Bool → List Char → List Char → List (List Char)
  | _, cur, [] => [cur.reverse]
  | false, cur, c :: rest =>
    if c.isWhitespace then cur.reverse :: wsSplitGo true [] rest
    else wsSplitGo false (c :: cur) rest
  | true, cur, c :: rest =>
    if c.isWhitespace then wsSplitGo true cur rest
    else wsSplitGo false [c] rest

/-- JavaScript `s.split(/\s+/)`. -/
def wsSplit (s : String) : List String :=
  (wsSplitGo false [] s.toList).map (fun cs => String.mk cs)

/-- JavaScript `s.toLowerCase()` (ASCII case folding). -/
def jsToLower (s : String) : String := String.mk (s.toList.map Char.toLower)

/-- Contiguous-sublist test on character lists, used to model
`String.prototype.includes`. -/
def substrB (needle : List Char) : List Char → Bool
  | [] => needle.isEmpty
  | c :: rest => needle.isPrefixOf (c :: rest) || substrB needle rest

/-- JavaScript `hay.includes(needle)`. -/
def jsIncludes (hay needle : String) : Bool :=
  substrB needle.toList hay.toList

/-- Query tokenization of `searchSimilarProductsSimple`:
`query.toLowerCase().split(/\s+/).filter(word => word.length > 2)`. -/
def queryTokens (query : String) : List String :=
  (wsSplit (jsToLower query)).filter (fun w => decide (2 < w.length))

/-- Candidate word pool of `searchSimilarProductsSimple`: the document
content words plus the metadata name words (no length filter on these).
A missing name contributes `""`, whose single empty token matches every
query token under `includes`, exactly as in the source. -/
def docAllWords (d : DocRow) : List String :=
  wsSplit (jsToLower d.content) ++ wsSplit (jsToLower ((d.metadata.bind (·.name)).getD ""))

/-- Keyword-overlap score of `searchSimilarProductsSimple`:
`(commonWords.length / Math.max(queryWords.length, 1)) * 100`. -/
def simpleScore (qws : List String) (d : DocRow) : Rat :=
  let aws := docAllWords d
  let common := qws.filter (fun qw => aws.any (fun dw => jsIncludes dw qw || jsIncludes qw dw))
  ((common.length : Rat) / (max qws.length 1 : Nat)) * 100

/-- Result entry built by `searchSimilarProductsSimple`. -/
def toVectorSimple (qws : List String) (d : DocRow) : VectorSimilarProduct :=
  { content := d.content
    metadata := d.metadata
    similarity := simpleScore qws d
    hsn_code := jsOr2 d.hsn_code (d.metadata.bind (·.hsn_code)) "Unknown"
    product_name := jsOr (d.metadata.bind (·.name)) "Unknown Product"
    countries := [jsOr2 d.country (d.metadata.bind (·.country)) "Unknown"] }

/-- Table query issued by `searchSimilarProductsSimple`: rows whose metadata
type is `product_with_history`, minus rows whose `hsn_code` column equals the
excluded code (the PostgREST `neq` filter), limited to 100 rows. -/
def docTableQuery (excludeHsnCode : Option String) (table : List DocRow) : List DocRow :=
  ((table.filter (fun d => (d.metadata.bind (·.mtype)) = some "product_with_history")).filter
    (fun d =>
      match excludeHsnCode with
      | some e => decide (d.hsn_code ≠ e)
      | none => true)).take 100

/-- Descending-similarity ordering used by the fallback sort
`sort((a, b) => b.similarity - a.similarity)`; the JavaScript sort is stable
and `List.insertionSort` is the stable sort for this total preorder. -/
def simDesc (a b : VectorSimilarProduct) : Prop := b.similarity ≤ a.similarity

instance : DecidableRel simDesc := fun a b => by
  unfold simDesc; infer_instance

/-- `searchSimilarProductsSimple` of `vectorStore.ts`: the keyword-overlap
fallback.  The `documents` table contents are passed in as `table`; the
query/error outcome of the table read is not modelled separately (a read
error returns `[]` in the source, which the caller can model by passing an
empty table).  Rows scoring strictly above 20 are kept, sorted by descending
similarity and capped to `k`. -/
def searchSimilarProductsSimple (query : String) (excludeHsnCode : Option String)
    (k : Nat) (table : List DocRow) : List VectorSimilarProduct :=
  let rows := docTableQuery excludeHsnCode table
  let qws := queryTokens query
  let sims := rows.filterMap (fun d =>
    if (20 : Rat) < simpleScore qws d then some (toVectorSimple qws d) else none)
  (sims.insertionSort simDesc).take k

/-- First line of a string: `content.split("\n")[0]`. -/
def firstLine (s : String) : String :=
  String.mk (s.toList.takeWhile (fun c => c ≠ '\n'))

/-- Removal of the first occurrence of `pat` from a character list. -/
def removeFirstOccChars (pat : List Char) : List Char → List Char
  | [] => []
  | c :: rest =>
    if pat.isPrefixOf (c :: rest) then (c :: rest).drop pat.length
    else c :: removeFirstOccChars pat rest

/-- JavaScript `s.replace(pat, "")`: remove the first occurrence of `pat`
(for the non-empty constant pattern used in the source). -/
def removeFirstOcc (pat s : String) : String :=
  String.mk (removeFirstOccChars pat.toList s.toList)

/-- Product-name chain of the primary mapping in `searchSimilarProducts`:
`item.metadata?.name || item.content.split("\n")[0]?.replace("Product: ", "")
|| "Unknown Product"`. -/
def primaryName (i : MatchItem) : String :=
  jsOr (i.metadata.bind (·.name))
    (jsOr2 (removeFirstOcc "Product: " (firstLine i.content)) none "Unknown Product")

/-- Filter of the primary path in `searchSimilarProducts`: drop the excluded
code (matched against both the column and the metadata field), keep only
`product_with_history` rows with `similarity >= 0.1`. -/
def primaryKeep (excludeHsnCode : Option String) (i : MatchItem) : Bool :=
  (match excludeHsnCode with
   | some e => !(i.hsn_code = e || (i.metadata.bind (·.hsn_code)) = some e)
   | none => true)
  && metaType i = some "product_with_history"
  && decide ((1 / 10 : Rat) ≤ i.similarity)

/-- Result entry built by the primary path of `searchSimilarProducts`. -/
def toVectorPrimary (i : MatchItem) : VectorSimilarProduct :=
  { content := i.content
    metadata := i.metadata
    similarity := min 100 (i.similarity * 100)
    hsn_code := jsOr2 i.hsn_code (i.metadata.bind (·.hsn_code)) "Unknown"
    product_name := primaryName i
    countries := [jsOr2 i.country (i.metadata.bind (·.country)) "Unknown"] }

/-- External collaborator responses seen by one `searchSimilarProducts`
call: the `match_documents` RPC outcome and the `documents` table contents
read by the fallback. -/
structure SearchEnv where
  rpc : Except Unit (List MatchItem)
  table : List DocRow

/-- `searchSimilarProducts` of `vectorStore.ts`.  An RPC error, an empty RPC
row set, or any thrown error falls back to `searchSimilarProductsSimple`
(the embedding call preceding the RPC is not a separate failure source in
this model).  Otherwise the rows are filtered, sliced to `k` and mapped. -/
def searchSimilarProducts (query : String) (excludeHsnCode : Option String)
    (k : Nat) (env : SearchEnv) : List VectorSimilarProduct :=
  match env.rpc with
  | .error _ => searchSimilarProductsSimple query excludeHsnCode k env.table
  | .ok data =>
    if data = [] then searchSimilarProductsSimple query excludeHsnCode k env.table
    else ((data.filter (primaryKeep excludeHsnCode)).take k).map toVectorPrimary

/-- Metrics computed by `analyzeLocalData` in `index.tsx` and rendered into
its report string.  The `marketPosition` field holds which branch of the
nested market-position conditional was rendered, by its source text (the
leading emoji is dropped). -/
structure LocalMetrics where
  currentSellingPrice : Rat
  previousPrice : Rat
  minHistoricalPrice : Rat
  maxHistoricalPrice : Rat
  trend : String
  recentChange : Rat
  marketPosition : String
deriving DecidableEq, Repr

/-- `analyzeLocalData` of `index.tsx` (lines 73-135), reduced to the metrics
it computes; `none` corresponds to the early return of the literal
`"No historical data available for analysis."` on an empty record list.
`Math.min(...prices)` and `Math.max(...prices)` are folds over the price
list seeded with the current price (an element of the list). -/
def analyzeLocalData (data : List HistoricalData) : Option LocalMetrics :=
  match data with
  | [] => none
  | d0 :: rest =>
    let prices := (d0 :: rest).map (·.price)
    let currentSellingPrice := d0.price
    let previousPrice := match rest with
      | [] => d0.price
      | d1 :: _ => d1.price
    let minHistoricalPrice := prices.foldl min currentSellingPrice
    let maxHistoricalPrice := prices.foldl max currentSellingPrice
    let recentChange : Rat :=
      if rest = [] then 0
      else ((currentSellingPrice - previousPrice) / previousPrice) * 100
    let trend :=
      if rest ≠ [] ∧ 2 < recentChange then "increasing"
      else if rest ≠ [] ∧ recentChange < -2 then "decreasing"
      else "stable"
    let marketPosition :=
      if currentSellingPrice = maxHistoricalPrice then "At HIGHEST historical price"
      else if currentSellingPrice = minHistoricalPrice then "At LOWEST historical price"
      else if (minHistoricalPrice + maxHistoricalPrice) / 2 < currentSellingPrice then
        "Above historical average"
      else "Below historical average"
    some { currentSellingPrice, previousPrice, minHistoricalPrice, maxHistoricalPrice,
           trend, recentChange, marketPosition }

/-- Placeholder set by `handleAnalyze` when the prediction call throws. -/
def predictionPlaceholder : String := "🔮 Market prediction temporarily unavailable"

/-- Remote-mode tail of `handleAnalyze` in `index.tsx` (lines 228-248).  The
outcomes of `analyzeWithEnhancedContext` and `generateMarketPrediction` are
passed in as `Except` values.  A failed analysis call propagates (the outer
catch of `handleAnalyze` turns it into an alert); a failed prediction call
is downgraded to the fixed placeholder while the analysis text is kept. -/
def dispatchRemoteAnalysis (analysisResult predictionResult : Except String String) :
    Except String (String × String) :=
  match analysisResult with
  | .error e => .error e
  | .ok a =>
    let resultText := "🤖 AI-POWERED ENHANCED ANALYSIS\n\n" ++ a
    match predictionResult with
    | .ok p => .ok (resultText, "🔮 MARKET PREDICTION\n\n" ++ p)
    | .error _ => .ok (resultText, predictionPlaceholder)

/-- Expected embedding dimensionality (`EXPECTED_DIMENSIONS` in `api.ts`). -/
def EXPECTED_DIMENSIONS : Nat := 384

/-- Responses of the HuggingFace embedding service: the vector returned by
the n-th `embedQuery` call of the process (both the `"test"` probe of
`initializeEmbeddings` and the per-text calls of `generateEmbedding` consume
one response each). -/
structure EmbedEnv where
  vec : Nat → List Rat

/-- Failure outcomes of the embedding client. -/
inductive EmbErr where
  /-- `initializeEmbeddings` threw: the probe vector had `got` dimensions. -/
  | initFailed (got : Nat)
  /-- `generateEmbedding` produced a vector with `got` dimensions. -/
  | genMismatch (got : Nat)
  /-- The retry loop of `generateEmbedding` exhausted its `attempts`,
  carrying the last underlying cause. -/
  | exhausted (attempts : Nat) (last : EmbErr)
  /-- The unreachable final `throw` after the loop (`retries = 0`). -/
  | noAttempt
deriving DecidableEq, Repr

/-- `initializeEmbeddings` of `api.ts`: embed the fixed probe string
`"test"` (consuming one service response) and fail unless the vector length
equals `EXPECTED_DIMENSIONS`.  Returns the outcome and the next call
counter: exactly one probe call is made, with no retry inside. -/
def initializeEmbeddings (env : EmbedEnv) (calls : Nat) : Except EmbErr Unit × Nat :=
  let v := env.vec calls
  if v.length = EXPECTED_DIMENSIONS then (.ok (), calls + 1)
  else (.error (.initFailed v.length), calls + 1)

/-- Retry loop body of `generateEmbedding` (`api.ts` lines 100-124).
`left + 1` attempts remain; `cached` says whether the module-level
`embeddings` handle is already initialized; `calls` is the service call
counter and `inits` counts completed `initializeEmbeddings` invocations.
Each attempt initializes the handle if absent, then embeds the text and
validates its dimensionality; any failure inside the attempt is caught and,
unless this was the last attempt, retried (after the modelled-away backoff
delay `2^attempt` seconds). -/
def genGo (env : EmbedEnv) (retries : Nat) :
    Nat → Bool → Nat → Nat → Except EmbErr (List Rat) × Nat
  | 0, _, _, inits => (.error .noAttempt, inits)
  | left + 1, true, calls, inits =>
    let v := env.vec calls
    if v.length = EXPECTED_DIMENSIONS then (.ok v, inits)
    else if left = 0 then (.error (.exhausted retries (.genMismatch v.length)), inits)
    else genGo env retries left true (calls + 1) inits
  | left + 1, false, calls, inits =>
    match initializeEmbeddings env calls with
    | (.ok _, calls1) =>
      let v := env.vec calls1
      if v.length = EXPECTED_DIMENSIONS then (.ok v, inits + 1)
      else if left = 0 then (.error (.exhausted retries (.genMismatch v.length)), inits + 1)
      else genGo env retries left true (calls1 + 1) (inits + 1)
    | (.error e, calls1) =>
      if left = 0 then (.error (.exhausted retries e), inits + 1)
      else genGo env retries left false calls1 (inits + 1)

/-- `generateEmbedding` of `api.ts` with its default `retries = 3`, started
with no cached handle.  Returns the outcome together with the number of
`initializeEmbeddings` invocations it performed. -/
def generateEmbedding (env : EmbedEnv) (retries : Nat) : Except EmbErr (List Rat) × Nat :=
  genGo env retries retries false 0 0

/-- Embedding service that always answers with the same vector. -/
def constEnv (v : List Rat) : EmbedEnv := ⟨fun _ => v⟩

/-- Document of the `documents` table as written by
`storeProductWithHistoricalData`.  Timestamps are abstract clock readings
(`Nat`); `updated_at` is absent on freshly inserted rows because the insert
branch sets only `created_at`. -/
structure StoredDoc where
  id : Nat
  hsn_code : String
  country : String
  content : String
  embedding : List Rat
  prices : List (String × Rat)
  meta_created : Nat
  meta_updated : Option Nat
  created_at : Nat
  updated_at : Option Nat
deriving DecidableEq, Repr

/-- Rendering of the records into the canonical document text.  JavaScript
`price.toFixed(2)` number formatting is abstracted by a rational rendering
(round half up to two decimals); no claim depends on the digits. -/
def showFixed2 (p : Rat) : String :=
  let n := (⌊p * 100 + 1 / 2⌋).toNat
  toString (n / 100) ++ "." ++ toString ((n % 100) / 10) ++ toString (n % 10)

/-- Canonical document text built by `storeProductWithHistoricalData` and
reused as the query text of `findSimilarHistoricalData`. -/
def renderText (productName hsnCode country : String) (hist : List HistoricalData) : String :=
  let dataString := String.intercalate "\n"
    (hist.map (fun d => d.year ++ ": $" ++ showFixed2 d.price ++ " " ++ d.currency))
  "Product: " ++ productName ++ "\nHSN: " ++ hsnCode ++ "\nCountry: " ++ country
    ++ "\nHistorical Data:\n" ++ dataString

/-- Documents of a store matching the (`hsn_code`, `country`) key. -/
def docsFor (hsnCode country : String) (store : List StoredDoc) : List StoredDoc :=
  store.filter (fun d => d.hsn_code = hsnCode && d.country = country)

/-- Fresh id for an inserted document (the store assigns ids; the model
picks one larger than every existing id). -/
def freshId (store : List StoredDoc) : Nat :=
  store.foldr (fun d m => max d.id m) 0 + 1

/-- The in-place rewrite performed by the update branch of the upsert: it
touches content, embedding, metadata and the update timestamp, and leaves
the key columns (`hsn_code`, `country`), the id and `created_at` alone. -/
def updatedDoc (now : Nat) (text : String) (emb : List Rat)
    (priceMap : List (String × Rat)) (d : StoredDoc) : StoredDoc :=
  { d with
    content := text
    embedding := emb
    prices := priceMap
    meta_created := now
    meta_updated := some now
    updated_at := some now }

/-- The fresh document built by the insert branch of the upsert: it stamps
`created_at` only — the insert sets no `updated_at` column. -/
def insertedDoc (now : Nat) (hsnCode country text : String) (emb : List Rat)
    (priceMap : List (String × Rat)) (store : List StoredDoc) : StoredDoc :=
  { id := freshId store
    hsn_code := hsnCode
    country := country
    content := text
    embedding := emb
    prices := priceMap
    meta_created := now
    meta_updated := none
    created_at := now
    updated_at := none }

/-- `storeProductWithHistoricalData` of `api.ts` (lines 126-202), on the
path where the embedding call succeeds (`emb` is its result) and the store
operations succeed; `now` is the clock reading that `new Date()` yields
during the call.  Empty records short-circuit to a no-op.  The `single()`
lookup by key answers with the row when the key matches exactly one
document; both zero and several matches surface as `PGRST116`, which the
source treats as \x7bno existing document\x7d and answers with an insert.
The update branch rewrites content, embedding and metadata of the row with
the found id and stamps `updated_at`; the insert branch stamps only
`created_at`. -/
def storeProductWithHistoricalData (now : Nat) (productName hsnCode country : String)
    (hist : List HistoricalData) (emb : List Rat) (store : List StoredDoc) :
    List StoredDoc :=
  if hist = [] then store
  else
    let text := renderText productName hsnCode country hist
    let priceMap := hist.map (fun d => (d.year, d.price))
    match docsFor hsnCode country store with
    | [r] => store.map (fun d => if d.id = r.id then updatedDoc now text emb priceMap d else d)
    | _ => store ++ [insertedDoc now hsnCode country text emb priceMap store]

/-- Application world as seen by `initializeProductEmbedding`: the document
store plus a counter of network calls issued so far. -/
structure AppWorld where
  docs : List StoredDoc
  netCalls : Nat
deriving DecidableEq, Repr

/-- `initializeProductEmbedding` of `api.ts` (lines 305-310): the exported
async function has an empty body, so it resolves successfully with the world
untouched. -/
def initializeProductEmbedding (productName hsnCode country : String) (w : AppWorld) :
    Except String AppWorld :=
  .ok w

section Helpers

/-- Any record in the output of `parseCountryData` comes from a cell entry
with a numeric positive price and carries the literal `"USD"` currency. -/
theorem mem_parseCountryData {cell : List (String × Option Rat)} {r : HistoricalData}
    (h : r ∈ parseCountryData cell) :
    ∃ y p, (y, some p) ∈ cell ∧ 0 < p ∧ r = ⟨y, p, "USD"⟩ := by
  unfold parseCountryData validRecords at h
  have h1 := List.take_subset _ _ h
  rw [(List.perm_insertionSort yearDesc _).mem_iff, List.mem_filterMap] at h1
  obtain ⟨yp, hyp, heq⟩ := h1
  split at heq
  next p hv =>
    split at heq
    next hp =>
      cases heq
      refine ⟨yp.1, p, ?_, hp, rfl⟩
      rw [← hv]
      simpa using hyp
    next => cases heq
  next => cases heq

/-- Inversion of a successful `fetchHistoricalData` call: the row exists,
the market column is non-null and its parse is the non-empty result. -/
theorem fetch_ok_parse {row? : Option MarketRow} {country : String}
    {l : List HistoricalData} (h : fetchHistoricalData row? country = .ok l) :
    ∃ row cell, row? = some row ∧ (row.cells.lookup country).join = some cell ∧
      parseCountryData cell = l ∧ l ≠ [] := by
  unfold fetchHistoricalData at h
  split at h
  next => cases h
  next row =>
    split at h
    next => split at h <;> cases h
    next cell hc =>
      split at h
      next => cases h
      next r records hp =>
        cases h
        exact ⟨row, cell, rfl, hc, hp, by simp⟩

end Helpers

/-- C9: the public operation `initializeProductEmbedding` is a no-op for
every input: the exported async function has an empty body, so it resolves
successfully and leaves the document store and the network-call counter of
the world unchanged, even though `handleAnalyze` invokes it at the start of
every embeddings-enabled analysis. -/
theorem initializeProductEmbedding_noop (productName hsnCode country : String)
    (w : AppWorld) :
    initializeProductEmbedding productName hsnCode country w = .ok w := rfl

/-- C6: in remote mode, when the main analysis call succeeds, a failure of
the prediction call never prevents the analysis text from being returned:
the prediction field becomes the fixed unavailable placeholder.  Conversely
a failure of the main analysis call propagates as a fatal error. -/
theorem prediction_failure_isolated :
    (∀ a e, dispatchRemoteAnalysis (.ok a) (.error e) =
      .ok ("🤖 AI-POWERED ENHANCED ANALYSIS\n\n" ++ a, predictionPlaceholder)) ∧
    (∀ e pr, dispatchRemoteAnalysis (.error e) pr = .error e) :=
  ⟨fun _ _ => rfl, fun _ _ => rfl⟩

/-- C5: local analysis on the newest-first records (2024, 120), (2023, 100)
yields trend "increasing", a recent change of exactly 20 percent and the
market position at the highest historical price (and in particular not the
mere above-average position); on (2024, 100), (2023, 120) it yields trend
"decreasing" with a recent change of -50/3 percent, which rounds to -16.67
percent (it lies within 0.005 of -16.67). -/
theorem analyzeLocalData_samples :
    analyzeLocalData [⟨"2024", 120, "USD"⟩, ⟨"2023", 100, "USD"⟩] =
      some { currentSellingPrice := 120, previousPrice := 100,
             minHistoricalPrice := 100, maxHistoricalPrice := 120,
             trend := "increasing", recentChange := 20,
             marketPosition := "At HIGHEST historical price" } ∧
    "At HIGHEST historical price" ≠ "Above historical average" ∧
    (analyzeLocalData [⟨"2024", 100, "USD"⟩, ⟨"2023", 120, "USD"⟩]).map
      LocalMetrics.trend = some "decreasing" ∧
    (analyzeLocalData [⟨"2024", 100, "USD"⟩, ⟨"2023", 120, "USD"⟩]).map
      LocalMetrics.recentChange = some (-50 / 3) ∧
    ((-1667 : Rat) / 100 - 1 / 200 < -50 / 3 ∧ (-50 : Rat) / 3 < -1667 / 100 + 1 / 200) := by
  refine ⟨?_, by decide, ?_, ?_, by norm_num⟩ <;>
    norm_num [analyzeLocalData, min_def, max_def]

/-- C10: every record produced by parsing a market column, and hence every
record returned by a successful `fetchHistoricalData` call, has currency
equal to the literal "USD", regardless of any currency information in the
stored data. -/
theorem records_currency_always_usd :
    (∀ cell r, r ∈ parseCountryData cell → r.currency = "USD") ∧
    (∀ row? country l, fetchHistoricalData row? country = .ok l →
      ∀ r ∈ l, r.currency = "USD") := by
  constructor
  · intro cell r hr
    obtain ⟨y, p, _, _, hre⟩ := mem_parseCountryData hr
    rw [hre]
  · intro row? country l hl r hr
    obtain ⟨row, cell, _, _, hparse, _⟩ := fetch_ok_parse hl
    obtain ⟨y, p, _, _, hre⟩ := mem_parseCountryData (hparse ▸ hr)
    rw [hre]

/-- Witness for C10 at a concrete cell and a concrete fetched row. -/
theorem records_currency_always_usd_witness :
    (⟨"2024", 120, "USD"⟩ : HistoricalData).currency = "USD" ∧
    (⟨"2023", 7, "USD"⟩ : HistoricalData).currency = "USD" :=
  ⟨records_currency_always_usd.1 [("2024", some 120)] _ (by decide),
   records_currency_always_usd.2 (some ⟨[("JAPAN", some [("2023", some 7)])]⟩) "JAPAN"
     [⟨"2023", 7, "USD"⟩] rfl _ (by decide)⟩

/-- Numeric leading year token of a record with parsing keys (the `getD`
default is irrelevant wherever the token is known to parse). -/
def yearNum (r : HistoricalData) : Int := (yearTokOpt r.year).getD 0

/-- Transitive descending ordering on numeric leading tokens, agreeing with
`yearDesc` on records whose keys parse. -/
def yearDescNum (a b : HistoricalData) : Prop := yearNum b ≤ yearNum a

instance : DecidableRel yearDescNum := fun a b => by
  unfold yearDescNum; infer_instance

instance : IsTotal HistoricalData yearDescNum :=
  ⟨fun a b => le_total (yearNum b) (yearNum a)⟩

instance : IsTrans HistoricalData yearDescNum :=
  ⟨fun _ _ _ hab hbc => le_trans hbc hab⟩

/-- On records whose leading year tokens parse, the SortCompare relation of
the comparator coincides with the numeric descending ordering. -/
theorem yearDesc_iff_num {a b : HistoricalData}
    (ha : (yearTokOpt a.year).isSome) (hb : (yearTokOpt b.year).isSome) :
    yearDesc a b ↔ yearDescNum a b := by
  obtain ⟨x, hx⟩ := Option.isSome_iff_exists.mp ha
  obtain ⟨y, hy⟩ := Option.isSome_iff_exists.mp hb
  unfold yearDesc yearCmp yearDescNum yearNum
  rw [hx, hy]
  simp [sub_nonpos]

/-- Ordered insertion only queries the relation between the inserted element
and list elements, so relations agreeing there insert identically. -/
theorem orderedInsert_congr {α : Type} {r s : α → α → Prop}
    [DecidableRel r] [DecidableRel s] (a : α) (l : List α)
    (h : ∀ b ∈ l, (r a b ↔ s a b)) :
    l.orderedInsert r a = l.orderedInsert s a := by
  induction l with
  | nil => rfl
  | cons b t ih =>
    simp only [List.orderedInsert]
    by_cases hr : r a b
    · rw [if_pos hr, if_pos ((h b (List.mem_cons_self b t)).mp hr)]
    · rw [if_neg hr, if_neg (fun hs => hr ((h b (List.mem_cons_self b t)).mpr hs)),
        ih (fun c hc => h c (List.mem_cons_of_mem b hc))]

/-- Insertion sort only queries the relation on pairs of list elements, so
relations agreeing on those pairs sort identically. -/
theorem insertionSort_congr {α : Type} {r s : α → α → Prop}
    [DecidableRel r] [DecidableRel s] (l : List α)
    (h : ∀ a ∈ l, ∀ b ∈ l, (r a b ↔ s a b)) :
    l.insertionSort r = l.insertionSort s := by
  induction l with
  | nil => rfl
  | cons a t ih =>
    simp only [List.insertionSort]
    rw [ih (fun x hx y hy =>
      h x (List.mem_cons_of_mem a hx) y (List.mem_cons_of_mem a hy))]
    apply orderedInsert_congr
    intro b hb
    have hbt : b ∈ t := ((List.perm_insertionSort s t).mem_iff).mp hb
    exact h a (List.mem_cons_self a t) b (List.mem_cons_of_mem a hbt)

/-- The parsed record list keeps at most the 5 most recent records. -/
theorem parseCountryData_length_le (cell : List (String × Option Rat)) :
    (parseCountryData cell).length ≤ 5 := by
  unfold parseCountryData
  exact List.length_take_le _ _

/-- When every record kept from the cell has a parsing leading year token,
the comparator is consistent and the parsed list is ordered by
non-increasing numeric token. -/
theorem parseCountryData_sorted_num (cell : List (String × Option Rat))
    (hall : ∀ r ∈ validRecords cell, (yearTokOpt r.year).isSome) :
    (parseCountryData cell).Pairwise yearDescNum := by
  unfold parseCountryData
  rw [insertionSort_congr (validRecords cell)
    (fun a ha b hb => yearDesc_iff_num (hall a ha) (hall b hb))]
  exact List.Pairwise.sublist (List.take_sublist _ _)
    (List.sorted_insertionSort yearDescNum _)

/-- C4 (amended): for every row and market whose stored column parses to at
least one positive-price entry, and whose retained entries all carry a
numeric leading year token (so that the `parseInt`-difference comparator is
consistent — with a `NaN` token every comparison involving it is coerced to
a tie and ECMAScript leaves the overall order implementation-defined),
`fetchHistoricalData` returns a record list of length at most 5 in which
every price is strictly positive, sorted in non-increasing order of the
leading numeric year token; the order is strictly descending whenever the
returned leading tokens are pairwise distinct.  (The unamended strict
ordering fails when two stored year labels share a leading token, e.g.
"2020" and "2020-2021": the comparator returns 0 and the stable sort keeps
the stored order.) -/
theorem fetchHistoricalData_shape (row : MarketRow) (country : String)
    (cell : List (String × Option Rat)) (l : List HistoricalData)
    (hcell : (row.cells.lookup country).join = some cell)
    (hall : ∀ r ∈ validRecords cell, (yearTokOpt r.year).isSome)
    (h : fetchHistoricalData (some row) country = .ok l) :
    l.length ≤ 5 ∧ (∀ r ∈ l, 0 < r.price) ∧
    l.Pairwise yearDescNum ∧
    ((l.map yearNum).Nodup → l.Pairwise (fun a b => yearNum b < yearNum a)) := by
  obtain ⟨row2, cell2, hrow2, hcell2, hparse, _⟩ := fetch_ok_parse h
  cases hrow2
  rw [hcell] at hcell2
  cases hcell2
  subst hparse
  refine ⟨parseCountryData_length_le cell, ?_,
    parseCountryData_sorted_num cell hall, ?_⟩
  · intro r hr
    obtain ⟨y, p, _, hp, hre⟩ := mem_parseCountryData hr
    rw [hre]
    exact hp
  · intro hnd
    have h1 := parseCountryData_sorted_num cell hall
    have h2 : (parseCountryData cell).Pairwise
        (fun a b => yearNum a ≠ yearNum b) := List.pairwise_map.mp hnd
    exact (h1.and h2).imp (fun hab => lt_of_le_of_ne hab.1 hab.2.symm)

/-- Witness for C4 at a concrete market row with two distinct years. -/
theorem fetchHistoricalData_shape_witness :
    ([⟨"2024", 9, "USD"⟩, ⟨"2022", 5, "USD"⟩] : List HistoricalData).length ≤ 5 ∧
    (∀ r ∈ ([⟨"2024", 9, "USD"⟩, ⟨"2022", 5, "USD"⟩] : List HistoricalData), 0 < r.price) ∧
    ([⟨"2024", 9, "USD"⟩, ⟨"2022", 5, "USD"⟩] : List HistoricalData).Pairwise
      yearDescNum ∧
    ((([⟨"2024", 9, "USD"⟩, ⟨"2022", 5, "USD"⟩] : List HistoricalData).map
        yearNum).Nodup →
      ([⟨"2024", 9, "USD"⟩, ⟨"2022", 5, "USD"⟩] : List HistoricalData).Pairwise
        (fun a b => yearNum b < yearNum a)) :=
  fetchHistoricalData_shape ⟨[("JAPAN", some [("2022", some 5), ("2024", some 9)])]⟩
    "JAPAN" [("2022", some 5), ("2024", some 9)] _ rfl (by decide) rfl

/-- C4 counterexample: a market column with year keys "2020" and
"2020-2021" (both parsing, with positive prices) is returned in an order
that is not strictly descending by leading year token — both leading tokens
are 2020, the comparator returns 0 and the stable sort keeps the stored
order. -/
theorem fetch_not_strictly_descending_cx :
    fetchHistoricalData (some ⟨[("AUSTRALIA", some [("2020", some 10), ("2020-2021", some 20)])]⟩)
      "AUSTRALIA" = .ok [⟨"2020", 10, "USD"⟩, ⟨"2020-2021", 20, "USD"⟩] ∧
    ¬ ([(⟨"2020", 10, "USD"⟩ : HistoricalData), ⟨"2020-2021", 20, "USD"⟩].Pairwise
        (fun a b => yearNum b < yearNum a)) :=
  ⟨rfl, by decide⟩

/-- Keep-condition characterizing the similar-products list of the
`findSimilarHistoricalData` loop: not the querying key, historical type tag
and similarity at least 50 percent. -/
def gateKeep (hsnCode country : String) (i : MatchItem) : Bool :=
  !isSelf hsnCode country i && passesGate i

/-- Keep-condition characterizing the similar-historical-data list: the
similar-products condition plus present year and price metadata. -/
def gateKeepHist (hsnCode country : String) (i : MatchItem) : Bool :=
  !isSelf hsnCode country i && (passesGate i && hasPriceMeta i)

/-- The result-accumulating loop is a filter-then-map on the RPC rows, for
both output lists; in particular both filters contain the 50-percent gate. -/
theorem processMatches_eq (hsnCode country : String) (l : List MatchItem) :
    processMatches hsnCode country l =
      ((l.filter (gateKeep hsnCode country)).map toSimilarProduct,
       (l.filter (gateKeepHist hsnCode country)).map toSimilarHistorical) := by
  induction l with
  | nil => rfl
  | cons i rest ih =>
    simp only [processMatches, ih, List.filter_cons]
    by_cases h1 : isSelf hsnCode country i = true
    · simp [gateKeep, gateKeepHist, h1]
    · by_cases h2 : passesGate i = true
      · by_cases h3 : hasPriceMeta i = true
        · simp [gateKeep, gateKeepHist, h1, h2, h3]
        · simp [gateKeep, gateKeepHist, h1, h2, h3]
      · simp [gateKeep, gateKeepHist, h1, h2]

/-- C1 (amended): in the primary nearest-neighbor path of
`findSimilarHistoricalData`, a candidate contributes a similar-historical
entry only when it also passes the `product_with_history` type tag and the
50-percent similarity gate (which the source applies to both lists, the
historical list additionally requiring year and price metadata to be
present); both output lists are independently capped to `limit` entries and
preserve the ranking order of the underlying search (they are descending in
similarity whenever the RPC rows are). -/
theorem findSimilar_gating (hsnCode country : String) (limit : Nat)
    (data : List MatchItem) (hne : data ≠ []) :
    findSimilarHistoricalData hsnCode country limit (.ok data) =
      (((data.filter (gateKeep hsnCode country)).map toSimilarProduct).take limit,
       ((data.filter (gateKeepHist hsnCode country)).map toSimilarHistorical).take limit) ∧
    (findSimilarHistoricalData hsnCode country limit (.ok data)).1.length ≤ limit ∧
    (findSimilarHistoricalData hsnCode country limit (.ok data)).2.length ≤ limit ∧
    (data.Pairwise (fun a b => b.similarity ≤ a.similarity) →
      (findSimilarHistoricalData hsnCode country limit (.ok data)).1.Pairwise
        (fun a b => b.similarity ≤ a.similarity) ∧
      (findSimilarHistoricalData hsnCode country limit (.ok data)).2.Pairwise
        (fun a b => b.similarity ≤ a.similarity)) := by
  have he : findSimilarHistoricalData hsnCode country limit (.ok data) =
      (((data.filter (gateKeep hsnCode country)).map toSimilarProduct).take limit,
       ((data.filter (gateKeepHist hsnCode country)).map toSimilarHistorical).take limit) := by
    simp only [findSimilarHistoricalData, processMatches_eq]
    rw [if_neg hne]
  refine ⟨he, ?_, ?_, ?_⟩
  · rw [he]; exact List.length_take_le _ _
  · rw [he]; exact List.length_take_le _ _
  · intro hs
    constructor
    · rw [he]
      apply List.Pairwise.sublist (List.take_sublist _ _)
      rw [List.pairwise_map]
      refine (hs.filter _).imp ?_
      intro a b hab
      show min 100 (b.similarity * 100) ≤ min 100 (a.similarity * 100)
      exact min_le_min le_rfl (mul_le_mul_of_nonneg_right hab (by norm_num))
    · rw [he]
      apply List.Pairwise.sublist (List.take_sublist _ _)
      rw [List.pairwise_map]
      refine (hs.filter _).imp ?_
      intro a b hab
      show min 100 (b.similarity * 100) ≤ min 100 (a.similarity * 100)
      exact min_le_min le_rfl (mul_le_mul_of_nonneg_right hab (by norm_num))

/-- Concrete candidate row with 60 percent similarity, used to witness the
amended C1 statement. -/
def w1item : MatchItem :=
  { hsn_code := "1234", country := "JAPAN", content := "", similarity := 3 / 5,
    metadata := some
      { hsn_code := some "1234", name := some "Widget", country := some "JAPAN",
        mtype := some "product_with_history", years := some ["2020"],
        prices := some [("2020", 10)], currencies := some [("2020", "USD")] } }

/-- Witness for C1 (amended) at a one-row RPC response. -/
theorem findSimilar_gating_witness :
    findSimilarHistoricalData "9999" "AUSTRALIA" 5 (.ok [w1item]) =
      ((([w1item].filter (gateKeep "9999" "AUSTRALIA")).map toSimilarProduct).take 5,
       (([w1item].filter (gateKeepHist "9999" "AUSTRALIA")).map toSimilarHistorical).take 5) ∧
    (findSimilarHistoricalData "9999" "AUSTRALIA" 5 (.ok [w1item])).1.length ≤ 5 ∧
    (findSimilarHistoricalData "9999" "AUSTRALIA" 5 (.ok [w1item])).2.length ≤ 5 ∧
    ([w1item].Pairwise (fun a b => b.similarity ≤ a.similarity) →
      (findSimilarHistoricalData "9999" "AUSTRALIA" 5 (.ok [w1item])).1.Pairwise
        (fun a b => b.similarity ≤ a.similarity) ∧
      (findSimilarHistoricalData "9999" "AUSTRALIA" 5 (.ok [w1item])).2.Pairwise
        (fun a b => b.similarity ≤ a.similarity)) :=
  findSimilar_gating "9999" "AUSTRALIA" 5 [w1item] (by decide)

/-- Concrete candidate row with 40 percent similarity and a non-empty
year-to-price metadata map, distinct from the querying key. -/
def c1item : MatchItem :=
  { hsn_code := "1234", country := "JAPAN", content := "", similarity := 2 / 5,
    metadata := some
      { hsn_code := some "1234", name := some "Widget", country := some "JAPAN",
        mtype := some "product_with_history", years := some ["2020"],
        prices := some [("2020", 10)], currencies := some [("2020", "USD")] } }

/-- C1 counterexample: this candidate is not the querying key and carries a
non-empty year/price metadata map, yet it contributes no similar-historical
entry, because its 40 percent similarity is below the 50 percent gate —
which, contrary to the claim, the source applies to the historical list as
well (the push is nested inside the gated block). -/
theorem findSimilar_below_gate_cx :
    isSelf "9999" "AUSTRALIA" c1item = false ∧
    (metaYears c1item).getD [] ≠ [] ∧
    (metaPrices c1item).getD [] ≠ [] ∧
    (findSimilarHistoricalData "9999" "AUSTRALIA" 5 (.ok [c1item])).2 = [] := by
  refine ⟨by decide, by decide, by decide, ?_⟩
  have hp : ¬ ((50 : Rat) ≤ c1item.similarity * 100) := by
    show ¬ ((50 : Rat) ≤ 2 / 5 * 100)
    norm_num
  have hg : passesGate c1item = false := by
    unfold passesGate
    rw [decide_eq_false hp, Bool.and_false]
  have hgk : gateKeepHist "9999" "AUSTRALIA" c1item = false := by
    unfold gateKeepHist
    rw [hg, Bool.false_and, Bool.and_false]
  simp only [findSimilarHistoricalData, processMatches_eq]
  rw [if_neg (by decide : ¬([c1item] = []))]
  simp [hgk]

/-- Rows surviving the fallback table query come from the table and never
carry the excluded `hsn_code` column value. -/
theorem mem_docTableQuery {e? : Option String} {table : List DocRow} {d : DocRow}
    (h : d ∈ docTableQuery e? table) :
    d ∈ table ∧ (∀ e, e? = some e → d.hsn_code ≠ e) := by
  unfold docTableQuery at h
  have h1 := List.take_subset _ _ h
  rw [List.mem_filter] at h1
  obtain ⟨h2, h3⟩ := h1
  rw [List.mem_filter] at h2
  refine ⟨h2.1, ?_⟩
  intro e he
  rw [he] at h3
  exact of_decide_eq_true h3

/-- Every fallback result entry arises from a queried row scoring strictly
above 20. -/
theorem mem_simple_search {query : String} {e? : Option String} {k : Nat}
    {table : List DocRow} {r : VectorSimilarProduct}
    (h : r ∈ searchSimilarProductsSimple query e? k table) :
    ∃ d ∈ docTableQuery e? table,
      (20 : Rat) < simpleScore (queryTokens query) d ∧
      r = toVectorSimple (queryTokens query) d := by
  simp only [searchSimilarProductsSimple] at h
  have h1 := List.take_subset _ _ h
  rw [(List.perm_insertionSort simDesc _).mem_iff, List.mem_filterMap] at h1
  obtain ⟨d, hd, heq⟩ := h1
  split at heq
  next hs => cases heq; exact ⟨d, hd, hs, rfl⟩
  next => cases heq

/-- The keyword-overlap score never exceeds 100: the common words are a
sublist of the query words, so the ratio is at most 1. -/
theorem simpleScore_le_100 (qws : List String) (d : DocRow) :
    simpleScore qws d ≤ 100 := by
  simp only [simpleScore]
  have hc : ((qws.filter (fun qw => (docAllWords d).any
      (fun dw => jsIncludes dw qw || jsIncludes qw dw))).length : Rat) ≤
      ((max qws.length 1 : Nat) : Rat) := by
    exact_mod_cast le_trans (List.length_filter_le _ _) (le_max_left _ _)
  have hm : (0 : Rat) < ((max qws.length 1 : Nat) : Rat) := by
    exact_mod_cast lt_of_lt_of_le one_pos (le_max_right _ _)
  calc ((qws.filter (fun qw => (docAllWords d).any
        (fun dw => jsIncludes dw qw || jsIncludes qw dw))).length : Rat) /
        ((max qws.length 1 : Nat) : Rat) * 100
      ≤ 1 * 100 := by
        apply mul_le_mul_of_nonneg_right _ (by norm_num)
        exact (div_le_one hm).mpr hc
    _ = 100 := one_mul 100

/-- Bounds for every entry the fallback search returns. -/
theorem simple_bounds {query : String} {e? : Option String} {k : Nat}
    {table : List DocRow} {r : VectorSimilarProduct}
    (h : r ∈ searchSimilarProductsSimple query e? k table) :
    0 ≤ r.similarity ∧ r.similarity ≤ 100 := by
  obtain ⟨d, _, hs, hre⟩ := mem_simple_search h
  subst hre
  constructor
  · have h0 : (0 : Rat) < simpleScore (queryTokens query) d :=
      lt_trans (by norm_num) hs
    simpa [toVectorSimple] using le_of_lt h0
  · simpa [toVectorSimple] using simpleScore_le_100 (queryTokens query) d

/-- Bounds for the clamped candidate score behind the 50-percent gate. -/
theorem gate_bounds {i : MatchItem} (h : passesGate i = true) :
    0 ≤ min 100 (i.similarity * 100) ∧ min 100 (i.similarity * 100) ≤ 100 := by
  unfold passesGate at h
  rw [Bool.and_eq_true] at h
  have h50 : (50 : Rat) ≤ i.similarity * 100 := of_decide_eq_true h.2
  exact ⟨le_min (by norm_num) (le_trans (by norm_num) h50), min_le_left _ _⟩

/-- C3: every similarity score in the results of both the primary
nearest-neighbor path (`findSimilarHistoricalData`, both output lists) and
of `searchSimilarProducts` (primary mapping and keyword-overlap fallback)
lies in the closed interval [0, 100], for all inputs and all candidate rows
passing the respective threshold filter. -/
theorem similarity_scores_in_range :
    (∀ hsnCode country limit rpc p,
      p ∈ (findSimilarHistoricalData hsnCode country limit rpc).1 →
      0 ≤ p.similarity ∧ p.similarity ≤ 100) ∧
    (∀ hsnCode country limit rpc q,
      q ∈ (findSimilarHistoricalData hsnCode country limit rpc).2 →
      0 ≤ q.similarity ∧ q.similarity ≤ 100) ∧
    (∀ query e? k env r, r ∈ searchSimilarProducts query e? k env →
      0 ≤ r.similarity ∧ r.similarity ≤ 100) := by
  refine ⟨?_, ?_, ?_⟩
  · intro hsnCode country limit rpc p hp
    match rpc with
    | .error _ => simp [findSimilarHistoricalData] at hp
    | .ok data =>
      by_cases hne : data = []
      · subst hne; simp [findSimilarHistoricalData] at hp
      · simp only [findSimilarHistoricalData, processMatches_eq, if_neg hne] at hp
        have h1 := List.take_subset _ _ hp
        rw [List.mem_map] at h1
        obtain ⟨i, hi, hpe⟩ := h1
        rw [List.mem_filter] at hi
        have hg : gateKeep hsnCode country i = true := hi.2
        unfold gateKeep at hg
        rw [Bool.and_eq_true] at hg
        have hb := gate_bounds hg.2
        rw [← hpe]
        simpa [toSimilarProduct] using hb
  · intro hsnCode country limit rpc q hq
    match rpc with
    | .error _ => simp [findSimilarHistoricalData] at hq
    | .ok data =>
      by_cases hne : data = []
      · subst hne; simp [findSimilarHistoricalData] at hq
      · simp only [findSimilarHistoricalData, processMatches_eq, if_neg hne] at hq
        have h1 := List.take_subset _ _ hq
        rw [List.mem_map] at h1
        obtain ⟨i, hi, hpe⟩ := h1
        rw [List.mem_filter] at hi
        have hg : gateKeepHist hsnCode country i = true := hi.2
        unfold gateKeepHist at hg
        rw [Bool.and_eq_true, Bool.and_eq_true] at hg
        have hb := gate_bounds hg.2.1
        rw [← hpe]
        simpa [toSimilarHistorical] using hb
  · intro query e? k env r hr
    obtain ⟨rpc, table⟩ := env
    match rpc with
    | .error u => exact simple_bounds (by simpa [searchSimilarProducts] using hr)
    | .ok data =>
      by_cases hne : data = []
      · subst hne
        exact simple_bounds (by simpa [searchSimilarProducts] using hr)
      · simp only [searchSimilarProducts, if_neg hne] at hr
        rw [List.mem_map] at hr
        obtain ⟨i, hi, hre⟩ := hr
        have h1 := List.take_subset _ _ hi
        rw [List.mem_filter] at h1
        have hk : primaryKeep e? i = true := h1.2
        unfold primaryKeep at hk
        rw [Bool.and_eq_true, Bool.and_eq_true] at hk
        have h10 : (1 / 10 : Rat) ≤ i.similarity := of_decide_eq_true hk.2
        rw [← hre]
        constructor
        · exact le_min (by norm_num)
            (mul_nonneg (le_trans (by norm_num) h10) (by norm_num))
        · exact min_le_left _ _

/-- Concrete stored document whose content shares the word "ceramic" with
the probe query, used in fallback-path evaluations. -/
def c2doc : DocRow :=
  { hsn_code := "111", country := "JAPAN", content := "Product: ceramic",
    metadata := some
      { hsn_code := some "111", name := some "ceramic", country := some "JAPAN",
        mtype := some "product_with_history", years := none, prices := none,
        currencies := none } }

/-- The probe document scores 100 against the query "ceramic". -/
theorem c2doc_score : simpleScore (queryTokens "ceramic") c2doc = 100 := by
  have hcommon : (queryTokens "ceramic").filter (fun qw => (docAllWords c2doc).any
      (fun dw => jsIncludes dw qw || jsIncludes qw dw)) = ["ceramic"] := by decide
  have hq : queryTokens "ceramic" = ["ceramic"] := by decide
  simp only [simpleScore]
  rw [hcommon, hq]
  norm_num

/-- The fallback search on the probe table returns exactly the probe entry. -/
theorem c2doc_simple_eval :
    searchSimilarProductsSimple "ceramic" (some "9999") 5 [c2doc] =
      [toVectorSimple (queryTokens "ceramic") c2doc] := by
  simp only [searchSimilarProductsSimple]
  rw [show docTableQuery (some "9999") [c2doc] = [c2doc] from by decide]
  simp only [List.filterMap_cons, List.filterMap_nil]
  rw [if_pos (show (20 : Rat) < simpleScore (queryTokens "ceramic") c2doc from by
    rw [c2doc_score]; norm_num)]
  simp [List.insertionSort, List.orderedInsert]

/-- C2 (amended): in `searchSimilarProducts`, a nearest-neighbor RPC failure
or an empty RPC row set triggers the keyword-overlap fallback, whose output
has length at most the `limit` parameter and draws every entry from a table
row whose `hsn_code` column differs from the excluded querying key.  By
contrast `findSimilarHistoricalData` — the similarity-search invocation the
analysis pipeline actually uses — executes no fallback: on RPC failure or an
empty row set it returns empty result lists. -/
theorem searchSimilar_fallback_contract :
    (∀ query e? k (env : SearchEnv), (env.rpc = .error () ∨ env.rpc = .ok []) →
      searchSimilarProducts query e? k env =
        searchSimilarProductsSimple query e? k env.table) ∧
    (∀ query e? k table,
      (searchSimilarProductsSimple query e? k table).length ≤ k) ∧
    (∀ query e k table r, r ∈ searchSimilarProductsSimple query (some e) k table →
      ∃ d ∈ table, d.hsn_code ≠ e ∧ r = toVectorSimple (queryTokens query) d) ∧
    (∀ hsnCode country limit,
      findSimilarHistoricalData hsnCode country limit (.error ()) = ([], []) ∧
      findSimilarHistoricalData hsnCode country limit (.ok []) = ([], [])) := by
  refine ⟨?_, ?_, ?_, ?_⟩
  · rintro query e? k ⟨rpc, table⟩ (h | h) <;> (cases h; rfl)
  · intro query e? k table
    simp only [searchSimilarProductsSimple]
    exact List.length_take_le _ _
  · intro query e k table r hr
    obtain ⟨d, hd, _, hre⟩ := mem_simple_search hr
    obtain ⟨hdt, hexc⟩ := mem_docTableQuery hd
    exact ⟨d, hdt, hexc e rfl, hre⟩
  · intro hsnCode country limit
    exact ⟨rfl, rfl⟩

/-- Witness for C2 (amended): concrete fallback activation, length bound and
row-level exclusion. -/
theorem searchSimilar_fallback_contract_witness :
    searchSimilarProducts "ceramic" (some "222") 5 ⟨.error (), [c2doc]⟩ =
      searchSimilarProductsSimple "ceramic" (some "222") 5 [c2doc] ∧
    (searchSimilarProductsSimple "ceramic" (some "222") 5 [c2doc]).length ≤ 5 ∧
    (∃ d ∈ [c2doc], d.hsn_code ≠ "9999" ∧
      toVectorSimple (queryTokens "ceramic") c2doc =
        toVectorSimple (queryTokens "ceramic") d) :=
  ⟨searchSimilar_fallback_contract.1 "ceramic" (some "222") 5 ⟨.error (), [c2doc]⟩
     (Or.inl rfl),
   searchSimilar_fallback_contract.2.1 "ceramic" (some "222") 5 [c2doc],
   searchSimilar_fallback_contract.2.2.1 "ceramic" "9999" 5 [c2doc] _
     (by rw [c2doc_simple_eval]; simp)⟩

/-- C2 counterexample: `findSimilarHistoricalData` is a similarity-search
invocation on which the claim fails — when its nearest-neighbor query
errors, it returns empty lists and the keyword-overlap fallback does not
execute, although the fallback run on the same stored table would have
produced a non-empty result. -/
theorem fallback_not_executed_cx :
    findSimilarHistoricalData "9999" "AUSTRALIA" 5 (.error ()) = ([], []) ∧
    searchSimilarProductsSimple "ceramic" (some "9999") 5 [c2doc] ≠ [] := by
  refine ⟨rfl, ?_⟩
  rw [c2doc_simple_eval]
  simp

/-- Witness for C3: concrete entries of all three result lists with their
bounds, obtained by instantiating the range theorem. -/
theorem similarity_scores_in_range_witness :
    (0 ≤ (toSimilarProduct w1item).similarity ∧
      (toSimilarProduct w1item).similarity ≤ 100) ∧
    (0 ≤ (toSimilarHistorical w1item).similarity ∧
      (toSimilarHistorical w1item).similarity ≤ 100) ∧
    (0 ≤ (toVectorSimple (queryTokens "ceramic") c2doc).similarity ∧
      (toVectorSimple (queryTokens "ceramic") c2doc).similarity ≤ 100) := by
  have h50 : (50 : Rat) ≤ w1item.similarity * 100 := by
    show (50 : Rat) ≤ 3 / 5 * 100
    norm_num
  have hg : gateKeep "9999" "AUSTRALIA" w1item = true := by
    unfold gateKeep passesGate
    rw [decide_eq_true h50]
    decide
  have hgh : gateKeepHist "9999" "AUSTRALIA" w1item = true := by
    unfold gateKeepHist passesGate
    rw [decide_eq_true h50]
    decide
  have hmem1 : toSimilarProduct w1item ∈
      (findSimilarHistoricalData "9999" "AUSTRALIA" 5 (.ok [w1item])).1 := by
    simp only [findSimilarHistoricalData, processMatches_eq,
      if_neg (show ¬([w1item] = []) from by decide)]
    simp [List.filter_cons, hg]
  have hmem2 : toSimilarHistorical w1item ∈
      (findSimilarHistoricalData "9999" "AUSTRALIA" 5 (.ok [w1item])).2 := by
    simp only [findSimilarHistoricalData, processMatches_eq,
      if_neg (show ¬([w1item] = []) from by decide)]
    simp [List.filter_cons, hgh]
  have hmem3 : toVectorSimple (queryTokens "ceramic") c2doc ∈
      searchSimilarProducts "ceramic" (some "9999") 5 ⟨.error (), [c2doc]⟩ := by
    show toVectorSimple (queryTokens "ceramic") c2doc ∈
      searchSimilarProductsSimple "ceramic" (some "9999") 5 [c2doc]
    rw [c2doc_simple_eval]
    simp
  exact ⟨similarity_scores_in_range.1 "9999" "AUSTRALIA" 5 (.ok [w1item]) _ hmem1,
         similarity_scores_in_range.2.1 "9999" "AUSTRALIA" 5 (.ok [w1item]) _ hmem2,
         similarity_scores_in_range.2.2 "ceramic" (some "9999") 5 ⟨.error (), [c2doc]⟩
           _ hmem3⟩

/-- With a service whose vectors never match the expected dimensionality,
every attempt of the retry loop fails while (re-)initializing the handle, so
the loop performs one initialization per attempt and ends with the
exhaustion error wrapping the last initialization failure. -/
theorem genGo_const_mismatch (v : List Rat) (hv : v.length ≠ EXPECTED_DIMENSIONS)
    (retries : Nat) :
    ∀ left, 1 ≤ left → ∀ calls inits,
      genGo (constEnv v) retries left false calls inits =
        (.error (.exhausted retries (.initFailed v.length)), inits + left) := by
  intro left
  induction left with
  | zero => intro h; omega
  | succ n ih =>
    intro _ calls inits
    have hinit : initializeEmbeddings (constEnv v) calls =
        (.error (.initFailed v.length), calls + 1) := by
      simp [initializeEmbeddings, constEnv, hv]
    rw [genGo, hinit]
    simp only []
    cases n with
    | zero => simp
    | succ m =>
      rw [if_neg (by omega : ¬(m + 1 = 0))]
      rw [ih (by omega) (calls + 1) (inits + 1)]
      have heq : inits + 1 + (m + 1) = inits + (m + 1 + 1) := by omega
      rw [heq]

/-- C7 (amended): when the first-use initialization probe returns a vector
whose length differs from the configured 384, `initializeEmbeddings` fails
immediately after that single probe call, with no retry of its own — but the
failure is not surfaced immediately by `generateEmbedding`: its catch-all
retry loop catches the initialization error and re-attempts initialization
(after the backoff delay) on every one of its `retries` attempts before
failing with the exhaustion error. -/
theorem embedding_mismatch_behavior :
    (∀ env calls, (env.vec calls).length ≠ EXPECTED_DIMENSIONS →
      initializeEmbeddings env calls =
        (.error (.initFailed (env.vec calls).length), calls + 1)) ∧
    (∀ v retries, v.length ≠ EXPECTED_DIMENSIONS → 1 ≤ retries →
      generateEmbedding (constEnv v) retries =
        (.error (.exhausted retries (.initFailed v.length)), retries)) := by
  constructor
  · intro env calls h
    simp [initializeEmbeddings, h]
  · intro v retries hv hr
    unfold generateEmbedding
    rw [genGo_const_mismatch v hv retries retries hr 0 0]
    rw [Nat.zero_add]

/-- Witness for C7 (amended) at a service constantly answering a
1-dimensional vector (any length other than 384 exhibits the mismatch). -/
theorem embedding_mismatch_behavior_witness :
    initializeEmbeddings (constEnv [0]) 0 =
      (.error (.initFailed ((constEnv [(0 : Rat)]).vec 0).length), 1) ∧
    generateEmbedding (constEnv [0]) 2 =
      (.error (.exhausted 2 (.initFailed [(0 : Rat)].length)), 2) :=
  ⟨embedding_mismatch_behavior.1 (constEnv [0]) 0 (by decide),
   embedding_mismatch_behavior.2 [0] 2 (by decide) (by decide)⟩

/-- C7 counterexample: with a probe service constantly answering vectors of
the wrong dimensionality (length 1 here), `generateEmbedding` with its
default `retries = 3` performs 3 initialization attempts — not 1 — before
surfacing the mismatch: the dimension-mismatch initialization failure IS
re-attempted with backoff, because the catch of the retry loop does not
distinguish it from a transient failure. -/
theorem embedding_mismatch_retried_cx :
    generateEmbedding (constEnv [0]) 3 =
      (.error (.exhausted 3 (.initFailed 1)), 3) ∧ (3 : Nat) ≠ 1 :=
  ⟨rfl, by decide⟩

/-- Filtering by document key commutes with mapping a key-preserving
function over the store. -/
theorem docsFor_filter_map (hsnCode country : String) (f : StoredDoc → StoredDoc)
    (hf : ∀ d, (f d).hsn_code = d.hsn_code ∧ (f d).country = d.country)
    (store : List StoredDoc) :
    docsFor hsnCode country (store.map f) = (docsFor hsnCode country store).map f := by
  unfold docsFor
  rw [List.filter_map]
  congr 1
  apply List.filter_congr
  intro d _
  simp [Function.comp, (hf d).1, (hf d).2]

/-- Upsert on a store holding no document for the key: the insert branch
runs and the key now owns exactly the freshly inserted document. -/
theorem docsFor_upsert_none {now : Nat} {pn hsnCode country : String}
    {hist : List HistoricalData} {emb : List Rat} {store : List StoredDoc}
    (hh : hist ≠ []) (hz : docsFor hsnCode country store = []) :
    docsFor hsnCode country
        (storeProductWithHistoricalData now pn hsnCode country hist emb store) =
      [insertedDoc now hsnCode country (renderText pn hsnCode country hist) emb
        (hist.map (fun d => (d.year, d.price))) store] := by
  unfold storeProductWithHistoricalData
  rw [if_neg hh, hz]
  show docsFor hsnCode country (store ++ [insertedDoc now hsnCode country
    (renderText pn hsnCode country hist) emb
    (hist.map (fun d => (d.year, d.price))) store]) = _
  unfold docsFor
  rw [List.filter_append]
  unfold docsFor at hz
  rw [hz, List.nil_append]
  simp [insertedDoc]

/-- Upsert on a store holding exactly one document for the key: the update
branch runs and the key now owns exactly the in-place updated document. -/
theorem docsFor_upsert_one {now : Nat} {pn hsnCode country : String}
    {hist : List HistoricalData} {emb : List Rat} {store : List StoredDoc}
    {r : StoredDoc} (hh : hist ≠ []) (ho : docsFor hsnCode country store = [r]) :
    docsFor hsnCode country
        (storeProductWithHistoricalData now pn hsnCode country hist emb store) =
      [updatedDoc now (renderText pn hsnCode country hist) emb
        (hist.map (fun d => (d.year, d.price))) r] := by
  unfold storeProductWithHistoricalData
  rw [if_neg hh, ho]
  show docsFor hsnCode country (store.map (fun d =>
    if d.id = r.id then updatedDoc now (renderText pn hsnCode country hist) emb
      (hist.map (fun d => (d.year, d.price))) d else d)) = _
  rw [docsFor_filter_map _ _ _ (fun d => by
    by_cases h : d.id = r.id <;> simp [h, updatedDoc])]
  rw [ho]
  simp

/-- C8: starting from any store state holding at most one document for the
(`hsn_code`, `country`) key, two successive upserts with non-empty records
never leave two documents for that key: after each call the key owns exactly
one document, the second call rewrites the document left by the first in
place (same id, same creation timestamp), and — since the second call reads
a strictly later clock — its update timestamp is strictly greater than any
update timestamp the document had after the first call. -/
theorem upsert_twice_single_doc (t1 t2 : Nat) (pn1 pn2 hsnCode country : String)
    (h1 h2 : List HistoricalData) (e1 e2 : List Rat) (store : List StoredDoc)
    (hh1 : h1 ≠ []) (hh2 : h2 ≠ [])
    (hcnt : (docsFor hsnCode country store).length ≤ 1) (ht : t1 < t2) :
    ∃ d1 d2,
      docsFor hsnCode country
        (storeProductWithHistoricalData t1 pn1 hsnCode country h1 e1 store) = [d1] ∧
      docsFor hsnCode country
        (storeProductWithHistoricalData t2 pn2 hsnCode country h2 e2
          (storeProductWithHistoricalData t1 pn1 hsnCode country h1 e1 store)) = [d2] ∧
      d2.id = d1.id ∧ d2.created_at = d1.created_at ∧ d2.updated_at = some t2 ∧
      (∀ u, d1.updated_at = some u → u < t2) := by
  cases hd : docsFor hsnCode country store with
  | nil =>
    have hs1 := @docsFor_upsert_none t1 pn1 hsnCode country h1 e1 store hh1 hd
    refine ⟨_, _, hs1,
      @docsFor_upsert_one t2 pn2 hsnCode country h2 e2 _ _ hh2 hs1,
      rfl, rfl, rfl, ?_⟩
    intro u hu
    cases hu
  | cons r rest =>
    cases rest with
    | nil =>
      have hs1 := @docsFor_upsert_one t1 pn1 hsnCode country h1 e1 store r hh1 hd
      refine ⟨_, _, hs1,
        @docsFor_upsert_one t2 pn2 hsnCode country h2 e2 _ _ hh2 hs1,
        rfl, rfl, rfl, ?_⟩
      intro u hu
      cases hu
      exact ht
    | cons r2 rest2 =>
      rw [hd] at hcnt
      simp at hcnt

/-- Witness for C8: two concrete upserts into an empty store. -/
theorem upsert_twice_single_doc_witness :
    ∃ d1 d2,
      docsFor "42" "JAPAN"
        (storeProductWithHistoricalData 10 "Tea" "42" "JAPAN"
          [⟨"2024", 5, "USD"⟩] [1] []) = [d1] ∧
      docsFor "42" "JAPAN"
        (storeProductWithHistoricalData 11 "Tea" "42" "JAPAN"
          [⟨"2024", 6, "USD"⟩] [2]
          (storeProductWithHistoricalData 10 "Tea" "42" "JAPAN"
            [⟨"2024", 5, "USD"⟩] [1] [])) = [d2] ∧
      d2.id = d1.id ∧ d2.created_at = d1.created_at ∧ d2.updated_at = some 11 ∧
      (∀ u, d1.updated_at = some u → u < 11) :=
  upsert_twice_single_doc 10 11 "Tea" "Tea" "42" "JAPAN"
    [⟨"2024", 5, "USD"⟩] [⟨"2024", 6, "USD"⟩] [1] [2] []
    (by decide) (by decide) (by decide) (by decide)

end ExpoRAG
